import Mathlib

/-!
Shallow embedding of the currency exchange-rate cache and conversion engine
of tgexchangebot (src/currency.go), together with theorems checking the
natural-language specification against it.

Modelling conventions:
* Go `float64` values are modelled as `ℚ` (exact rationals).
* Go `time.Time` is modelled as `Nat` (abstract clock units; the zero time is
  `0`, `t.IsZero()` is `t = 0`, `time.Since(t)` at clock `now` is `now - t`).
* Go maps are modelled as association lists with unique keys; `mapInsert`
  models the map write `m[k] = v` (replace-or-append).
* Network calls are modelled by passing the outcome of the call as an
  explicit argument (`Except String ...`): the embedding of a function that
  performs one network call takes the result that call would produce.
* `strings.ToLower` / `strings.ToUpper` perform full Unicode simple case
  mapping in Go; they are modelled here on the ASCII letters and the basic
  Cyrillic range U+0410–U+044F, which cover every alias, pattern and code in
  the registry.
-/

/-- Whitespace characters recognised by the model of `strings.TrimSpace`
(the ASCII subset of Unicode white space, which covers the inputs of
interest). -/
def isSpaceGo (ch : Char) : Bool :=
  ch = ' ' ∨ ch = '\t' ∨ ch = '\n' ∨ ch = '\r' ∨ ch = '\x0b' ∨ ch = '\x0c'

/-- Simple lower-casing of one character: ASCII `A`–`Z` and Cyrillic
`А`–`Я` (U+0410–U+042F) map by adding 32, all other characters are kept. -/
def charToLower (ch : Char) : Char :=
  if 'A' ≤ ch ∧ ch ≤ 'Z' then Char.ofNat (ch.toNat + 32)
  else if 'А' ≤ ch ∧ ch ≤ 'Я' then Char.ofNat (ch.toNat + 32)
  else ch

/-- Simple upper-casing of one character: ASCII `a`–`z` and Cyrillic
`а`–`я` (U+0430–U+044F) map by subtracting 32, all other characters are
kept. -/
def charToUpper (ch : Char) : Char :=
  if 'a' ≤ ch ∧ ch ≤ 'z' then Char.ofNat (ch.toNat - 32)
  else if 'а' ≤ ch ∧ ch ≤ 'я' then Char.ofNat (ch.toNat - 32)
  else ch

/-- Model of `strings.ToLower`. -/
def toLowerStr (s : String) : String := ⟨s.data.map charToLower⟩

/-- Model of `strings.ToUpper`. -/
def toUpperStr (s : String) : String := ⟨s.data.map charToUpper⟩

/-- Model of `strings.TrimSpace`: drop leading and trailing whitespace. -/
def trimStr (s : String) : String :=
  ⟨((s.data.dropWhile isSpaceGo).reverse.dropWhile isSpaceGo).reverse⟩

/-- Model of `strings.EqualFold` (case-insensitive equality), expressed with
the case mapping above. -/
def equalFold (a b : String) : Bool := toLowerStr a == toLowerStr b

/-- Does the first character of `s` equal `c`?  Each regular expression in
the registry has the form `^X.*` for a single character `X`; such a pattern
matches a string exactly when its first character is `X` (`.*` may be empty,
and `.` not matching a newline is irrelevant to the first character), so a
compiled rule is modelled by its distinguishing character. -/
def firstCharIs (c : Char) (s : String) : Bool :=
  match s.data with
  | [] => false
  | ch :: _ => ch = c

-- Normalized currency codes supported (src/currency.go, `const` block).

def CurRUR : String := "RUR"
def CurUSD : String := "USD"
def CurGEL : String := "GEL"

/-- Go struct `currencySpec`: canonical code, display symbol, lowercase
aliases. -/
structure currencySpec where
  Code : String
  Symbol : String
  Aliases : List String
deriving DecidableEq

/-- The static registry `currencySpecs` of src/currency.go. -/
def currencySpecs : List currencySpec :=
  [⟨CurRUR, "₽", ["р", "₽", "r", "rub", "rur"]⟩,
   ⟨CurUSD, "$", ["$", "usd", "долл"]⟩,
   ⟨CurGEL, "₾", ["л", "₾", "ლ", "лар", "лари", "gel"]⟩]

/-- `rawRegexSpecs`: each Go pattern (`^р.*`, `^л.*`, `^д.*`) is recorded by
its distinguishing first character together with the normalized code. -/
def rawRegexSpecs : List (Char × String) :=
  [('р', CurRUR), ('л', CurGEL), ('д', CurUSD)]

/-- `currencyCodes`, built by `initCurrencyMappings`. -/
def currencyCodes : List String := currencySpecs.map (fun s => s.Code)

/-- `currencyIndexByCode`, built by `initCurrencyMappings`:
`ToUpper(code) ↦ index`.  The Go map is modelled as an association list;
its keys are pairwise distinct, so first-match lookup agrees with the map. -/
def currencyIndexByCode : List (String × Nat) :=
  currencySpecs.enum.map (fun p => (toUpperStr p.2.Code, p.1))

/-- `currencyAliasToIndex`, built by `initCurrencyMappings`:
`ToLower(alias) ↦ index` for every alias of every spec.  The alias keys are
pairwise distinct, so first-match lookup agrees with the Go map. -/
def currencyAliasToIndex : List (String × Nat) :=
  currencySpecs.enum.foldl
    (fun acc p => acc ++ p.2.Aliases.map (fun a => (toLowerStr a, p.1))) []

/-- `currencyRegexpRules`, built by `initCurrencyMappings`: raw specs whose
code resolves in `currencyIndexByCode`, keeping declaration order. -/
def currencyRegexpRules : List (Char × Nat) :=
  rawRegexSpecs.foldr
    (fun rr acc =>
      match List.lookup (toUpperStr rr.2) currencyIndexByCode with
      | some idx => (rr.1, idx) :: acc
      | none => acc) []

/-- The body of `normalizeCurrency` after the input has been trimmed and
lower-cased: alias table first, then pattern rules in order, then the
canonical codes case-insensitively, else failure. -/
def normCore (t : String) : Option String :=
  match List.lookup t currencyAliasToIndex with
  | some idx => some (currencyCodes.getD idx "")
  | none =>
    match currencyRegexpRules.find? (fun rule => firstCharIs rule.1 t) with
    | some rule => some (currencyCodes.getD rule.2 "")
    | none =>
      let upper := toUpperStr t
      if (List.lookup upper currencyIndexByCode).isSome then some upper
      else none

/-- `normalizeCurrency` of src/currency.go; the Go pair `(string, ok)` is
modelled as `Option String`. -/
def normalizeCurrency (token : String) : Option String :=
  normCore (toLowerStr (trimStr token))

-- ---------------------------------------------------------------------------
-- Rate provider response shapes and the rate store
-- ---------------------------------------------------------------------------

/-- Go struct `tbcCommercialRate` (one element of the provider's list). -/
structure tbcCommercialRate where
  Currency : String
  Buy : ℚ
  Sell : ℚ
deriving DecidableEq

/-- Go struct `tbcCommercialRatesResponse` (full provider payload). -/
structure tbcCommercialRatesResponse where
  Base : String
  CommercialRatesList : List tbcCommercialRate
deriving DecidableEq

/-- Go struct `tbcRate`: one cached quote.  `Buy` is the bid side (the bank
buys the foreign currency), `Sell` is the ask side (the bank sells it),
`LastUpdated` is the timestamp (`0` = the zero time, never fetched). -/
structure tbcRate where
  Buy : ℚ
  Sell : ℚ
  LastUpdated : Nat
deriving DecidableEq

/-- The mutable state owned by the cache actor: the fields `base`, `rates`
and `lastUpdated` of Go struct `tbcRateCache`.  The `rates` map is an
association list with unique keys. -/
structure RateStore where
  base : String
  rates : List (String × tbcRate)
  lastUpdated : Nat
deriving DecidableEq

/-- The full cache handle created by `initCurrencyRates` (the immutable
`apiKey` plus the actor-owned store; the request channel is implicit in the
message-passing model). -/
structure tbcRateCache where
  apiKey : String
  store : RateStore
deriving DecidableEq

/-- Messages a background task may deliver to the actor's mailbox
(`applySingle` in src/currency.go). -/
inductive CacheMsg where
  | applySingle (code : String) (rate : tbcRate)
deriving DecidableEq

/-- Outcome of a Go call that may panic at runtime. -/
inductive GoResult (α : Type) where
  | ok (v : α)
  | panicked (msg : String)
deriving DecidableEq

/-- Go map write `m[k] = v` on the association-list model: replace the
binding if the key is present, append it otherwise. -/
def mapInsert (m : List (String × tbcRate)) (k : String) (v : tbcRate) :
    List (String × tbcRate) :=
  if m.any (fun p => p.1 = k) then
    m.map (fun p => if p.1 = k then (k, v) else p)
  else m ++ [(k, v)]

/-- `initCurrencyRates` of src/currency.go: with a blank API key it logs and
returns `nil` (modelled `none`); otherwise it returns a cache with an empty
store and starts the manager goroutine. -/
def initCurrencyRates (apiKey : String) : Option tbcRateCache :=
  if trimStr apiKey = "" then none
  else some { apiKey := apiKey, store := { base := "", rates := [], lastUpdated := 0 } }

-- ---------------------------------------------------------------------------
-- Cached cross-rate conversion
-- ---------------------------------------------------------------------------

/-- `cachedRate` of src/currency.go: the base currency has an implicit quote
`Buy = Sell = 1`; a code missing from the map yields the zero `tbcRate`. -/
def cachedRate (c : RateStore) (code : String) : tbcRate :=
  if code = c.base then { Buy := 1, Sell := 1, LastUpdated := 0 }
  else
    match List.lookup code c.rates with
    | some r => r
    | none => { Buy := 0, Sell := 0, LastUpdated := 0 }

/-- `getPairRateFromList` of src/currency.go, value semantics.  The Go pair
`(float64, bool)` is modelled as `ℚ × Bool`.  The staleness check in the Go
body only spawns a goroutine with an empty body (and is syntactically
truncated in the source); it has no effect on the returned value and is
omitted here. -/
def getPairRateFromList (c : RateStore) (fromCur toCur : String) (amount : ℚ) :
    ℚ × Bool :=
  if fromCur = toCur then (amount, true)
  else
    let rateFrom := cachedRate c fromCur
    let rateTo := cachedRate c toCur
    if rateFrom.Buy = 0 ∨ rateTo.Sell = 0 then (0, false)
    else
      let gel := amount * rateFrom.Buy
      (gel / rateTo.Sell, true)

/-- `defaultCounterCurrency` of src/currency.go. -/
def defaultCounterCurrency (code : String) : String :=
  let up := toUpperStr code
  if up = CurUSD then CurRUR
  else if up = CurGEL then CurRUR
  else CurUSD

/-- `_computeCounterAmountInternal` of src/currency.go, value semantics.
`OfferType` is an `Int` in the model (Go: `-1` buy, `1` sell); the function
never reads it.  The outcome of the `tryConvertEndpoint` network call is
passed in as `direct`.  The staleness bookkeeping that precedes the
conversion (syntactically mangled in the source) only requests background
refreshes and does not alter the returned value; it is omitted from this
value-level model.  The Go triple `(string, float64, error)` is modelled as
`String × ℚ × Option String` (the error message, `none` = nil error). -/
def _computeCounterAmountInternal (c : RateStore) (direct : Except String ℚ)
    (knownCurrency : String) (knownAmount : ℚ) (offerType : Int) :
    String × ℚ × Option String :=
  let toCur := defaultCounterCurrency knownCurrency
  match direct with
  | .ok v => (toCur, v, none)
  | .error _ =>
    let res := getPairRateFromList c knownCurrency toCur knownAmount
    if res.2 then (toCur, res.1, none)
    else (toCur, 0, some "conversion failed and no cached rate available")

/-- The public `computeCounterAmount` of src/currency.go: it sends a
`computeReq` over `c.reqCh` and the manager loop answers with the result of
`_computeCounterAmountInternal`, modelled as a direct application.  With a
`nil` receiver (`initCurrencyRates` returned `nil`), evaluating `c.reqCh`
dereferences a nil pointer and the call panics. -/
def computeCounterAmount (c : Option tbcRateCache) (knownCurrency : String)
    (knownAmount : ℚ) (offerType : Int) (direct : Except String ℚ) :
    GoResult (String × ℚ × Option String) :=
  match c with
  | none => .panicked "invalid memory address or nil pointer dereference"
  | some cache =>
      .ok (_computeCounterAmountInternal cache.store direct knownCurrency
            knownAmount offerType)

/-- Store of the bid/ask scenario of the spec: provider returned
`USD: bid 2.70, ask 2.75` and `RUR: bid 0.028, ask 0.030` against base GEL. -/
def scenarioStore : RateStore where
  base := "GEL"
  rates := [("USD", ⟨27/10, 11/4, 5⟩), ("RUR", ⟨7/250, 3/100, 5⟩)]
  lastUpdated := 5

/-- The store as created by `initCurrencyRates` before any refresh. -/
def emptyStore : RateStore where
  base := ""
  rates := []
  lastUpdated := 0

-- ---------------------------------------------------------------------------
-- Full refresh (synchronous, on the manager goroutine)
-- ---------------------------------------------------------------------------

/-- The map rebuild inside `_refresh`: each response entry is keyed by
`ToUpper(TrimSpace(currency))`, empty codes are skipped, duplicates
overwrite (Go map semantics); timestamps are set afterwards. -/
def buildRefreshMap (list : List tbcCommercialRate) : List (String × tbcRate) :=
  list.foldl
    (fun m r =>
      let code := toUpperStr (trimStr r.Currency)
      if code = "" then m
      else mapInsert m code { Buy := r.Buy, Sell := r.Sell, LastUpdated := 0 }) []

/-- The uniform-timestamp pass of `_refresh`: every entry of the rebuilt map
gets `LastUpdated := now`. -/
def stampAll (m : List (String × tbcRate)) (now : Nat) : List (String × tbcRate) :=
  m.map (fun p => (p.1, { p.2 with LastUpdated := now }))

/-- Outcome of `_refresh`: success with the new store, failure returning the
error with the untouched store, or the Go `panic` on a base-currency
change. -/
inductive RefreshResult where
  | ok (s : RateStore)
  | failed (e : String) (s : RateStore)
  | panicked (msg : String)
deriving DecidableEq

/-- `_refresh` of src/currency.go.  `timeout` only configures the request
context in Go (`timeout ≤ 0` means no deadline) and does not otherwise enter
the state transition; the outcome of `getTBCCurrencyRatesCtx` — transport
error, non-2xx status, decode failure or timeout, all of which that function
returns as an error — is passed in as `fetched`. -/
def _refresh (timeout : Int) (c : RateStore)
    (fetched : Except String tbcCommercialRatesResponse) (now : Nat) :
    RefreshResult :=
  match fetched with
  | .error e => .failed e c
  | .ok out =>
    if c.base ≠ "" ∧ ¬ equalFold c.base out.Base then
      .panicked "TBC base currency changed"
    else
      .ok { base := toUpperStr out.Base,
            rates := stampAll (buildRefreshMap out.CommercialRatesList) now,
            lastUpdated := now }

-- ---------------------------------------------------------------------------
-- Periodic tick: refreshIfStaleAsync
-- ---------------------------------------------------------------------------

/-- The loop of `refreshIfStaleAsync` over the cached quotes, with its early
exit: returns `(anyOld, oldest)` where `anyOld` is set (and the scan stops)
at the first zero-timestamp quote, and `oldest` is the minimum timestamp
seen so far, seeded with `now` (Go seeds it with `time.Now()`). -/
def oldestScan : List (String × tbcRate) → Nat → Bool × Nat
  | [], oldest => (false, oldest)
  | p :: rest, oldest =>
    if p.2.LastUpdated = 0 then (true, oldest)
    else oldestScan rest (if p.2.LastUpdated < oldest then p.2.LastUpdated else oldest)

/-- What one periodic tick decides to do with the store. -/
inductive TickAction where
  | noFetch
  | align (oldest : Nat)
  | fetch
deriving DecidableEq

/-- The decision logic of `refreshIfStaleAsync` of src/currency.go, executed
on the manager goroutine when the 4-hour ticker fires.  `.noFetch` is the
early `return` on the first check; `.align oldest` is the branch that sets
`c.lastUpdated = oldest` and returns; `.fetch` spawns the background full
fetch (whose completion is `refreshAsyncApply` below).  The staleness
threshold is 2 hours, written here as 7200 clock units. -/
def refreshIfStaleAsync (c : RateStore) (now : Nat) : TickAction :=
  let updateThreshold := 7200
  if c.lastUpdated ≠ 0 ∧ now - c.lastUpdated > updateThreshold then .noFetch
  else if c.rates.length > 0 then
    let scan := oldestScan c.rates now
    if scan.1 = false ∧ now - scan.2 < updateThreshold then .align scan.2
    else .fetch
  else .fetch

/-- One loop iteration of the map rebuild inside the background goroutine of
`refreshIfStaleAsync`: the key is upper-cased, a code missing from
`currencyIndexByCode` is skipped, and the entry is stamped `now` as it is
inserted. -/
def asyncStep (now : Nat) (acc : List (String × tbcRate)) (r : tbcCommercialRate) :
    List (String × tbcRate) :=
  let curr := toUpperStr r.Currency
  if (List.lookup curr currencyIndexByCode).isSome then
    mapInsert acc curr { Buy := r.Buy, Sell := r.Sell, LastUpdated := now }
  else acc

/-- The map rebuild inside the background goroutine of
`refreshIfStaleAsync`. -/
def buildAsyncMap (list : List tbcCommercialRate) (now : Nat) :
    List (String × tbcRate) :=
  list.foldl (asyncStep now) []

/-- Completion of the background goroutine spawned by `refreshIfStaleAsync`
(src/currency.go lines 387–410): given the store fields it can see and the
fetch outcome, it returns the store as the goroutine leaves it and the
messages it sends to the actor's mailbox.  The Go code assigns `c.base`,
`c.lastUpdated` and `c.rates` directly from this goroutine and sends no
message; on a fetch error it returns without touching anything. -/
def refreshAsyncApply (c : RateStore)
    (fetched : Except String tbcCommercialRatesResponse) (now : Nat) :
    RateStore × List CacheMsg :=
  match fetched with
  | .error _ => (c, [])
  | .ok out =>
    let base := if ¬ equalFold c.base out.Base then toUpperStr out.Base else c.base
    ({ base := base,
       rates := buildAsyncMap out.CommercialRatesList now,
       lastUpdated := now }, [])

-- ---------------------------------------------------------------------------
-- Background single-currency fetch and the ApplySingle handler
-- ---------------------------------------------------------------------------

/-- Completion of the background goroutine spawned by
`_startSingleRateUpdate`: on success it looks for the entry matching the
requested currency (case-insensitively) and sends one `applySingle` message
stamped with the current time; it never touches the store, and on any error
it sends nothing. -/
def singleRateUpdateComplete (cur : String)
    (fetched : Except String tbcCommercialRatesResponse) (now : Nat) :
    List CacheMsg :=
  match fetched with
  | .error _ => []
  | .ok out =>
    match out.CommercialRatesList.find? (fun r => equalFold r.Currency cur) with
    | some r =>
        [CacheMsg.applySingle cur { Buy := r.Buy, Sell := r.Sell, LastUpdated := now }]
    | none => []

/-- The `applySingle` case of the manager loop `run` (src/currency.go lines
288–294): a zero timestamp on the delivered rate is replaced with the
current time, the entry is merged into the map, and the cache-wide
`lastUpdated` is set to the current time.  Go calls `time.Now()` twice in
this handler; both calls are modelled by the single instant `now`. -/
def applySingleHandler (c : RateStore) (code : String) (rate : tbcRate)
    (now : Nat) : RateStore :=
  let r := if rate.LastUpdated = 0 then { rate with LastUpdated := now } else rate
  { c with rates := mapInsert c.rates code r, lastUpdated := now }

/-- The invariant of claim C10: every quote stored in the map carries a
non-zero (i.e. real) timestamp. -/
def quotesStamped (c : RateStore) : Prop :=
  ∀ p ∈ c.rates, p.2.LastUpdated ≠ 0

-- ---------------------------------------------------------------------------
-- Concrete inputs used by witnesses and counterexamples
-- ---------------------------------------------------------------------------

/-- A provider payload with one USD quote against base GEL. -/
def sampleResp : tbcCommercialRatesResponse where
  Base := "GEL"
  CommercialRatesList := [⟨"USD", 27/10, 11/4⟩]

/-- A store whose cache-wide timestamp (and sole quote) is far older than
the 2-hour staleness threshold at clock 10000. -/
def c3Store : RateStore where
  base := "GEL"
  rates := [("USD", ⟨27/10, 11/4, 100⟩)]
  lastUpdated := 100

-- ---------------------------------------------------------------------------
-- Helper lemmas
-- ---------------------------------------------------------------------------

/-- A property of the stored rates is preserved by a Go map write whose
value satisfies it. -/
theorem mapInsert_pres (P : tbcRate → Prop) (m : List (String × tbcRate))
    (k : String) (v : tbcRate) (hm : ∀ p ∈ m, P p.2) (hv : P v) :
    ∀ p ∈ mapInsert m k v, P p.2 := by
  intro p hp
  unfold mapInsert at hp
  split at hp
  · obtain ⟨q, hq, hfq⟩ := List.mem_map.mp hp
    by_cases hk : q.1 = k
    · rw [if_pos hk] at hfq
      rw [← hfq]
      exact hv
    · rw [if_neg hk] at hfq
      rw [← hfq]
      exact hm q hq
  · rcases List.mem_append.mp hp with h | h
    · exact hm p h
    · rw [List.mem_singleton.mp h]
      exact hv

/-- Every entry produced by the uniform-timestamp pass carries `now`. -/
theorem stampAll_stamped (m : List (String × tbcRate)) (now : Nat) :
    ∀ p ∈ stampAll m now, p.2.LastUpdated = now := by
  intro p hp
  obtain ⟨q, _, hfq⟩ := List.mem_map.mp hp
  rw [← hfq]

/-- Every entry built by the async-refresh loop carries the stamp `now`,
for any accumulator whose entries already do. -/
theorem asyncFold_stamped (now : Nat) :
    ∀ (l : List tbcCommercialRate) (acc : List (String × tbcRate)),
      (∀ p ∈ acc, p.2.LastUpdated = now) →
      ∀ p ∈ l.foldl (asyncStep now) acc, p.2.LastUpdated = now := by
  intro l
  induction l with
  | nil => intro acc hacc p hp; exact hacc p hp
  | cons r rest ih =>
    intro acc hacc p hp
    refine ih (asyncStep now acc r) ?_ p hp
    intro q hq
    simp only [asyncStep] at hq
    split at hq
    · exact mapInsert_pres (fun t => t.LastUpdated = now) acc _ _ hacc rfl q hq
    · exact hacc q hq

/-- The scenario conversion evaluated on the cached cross-rate path. -/
theorem scenario_pair_rate :
    getPairRateFromList scenarioStore "USD" "RUR" 100 = (9000, true) := by
  simp [getPairRateFromList, cachedRate, scenarioStore, List.lookup]
  norm_num

/-- The empty store has no quotes, hence trivially satisfies the stamp
invariant, and the cached path fails on it for distinct currencies. -/
theorem emptyStore_stamped : quotesStamped emptyStore := by
  intro p hp
  simp [emptyStore] at hp

-- ---------------------------------------------------------------------------
-- Claim theorems
-- ---------------------------------------------------------------------------

/-- C8: for every currency code `C` and every amount, the cached cross-rate
conversion (`getPairRateFromList`, which never consults the direct provider
convert) from `C` to `C` returns exactly the input amount. -/
theorem c8_identity_conversion (c : RateStore) (code : String) (amount : ℚ) :
    getPairRateFromList c code code amount = (amount, true) := by
  simp [getPairRateFromList]

/-- C4: for distinct currencies with usable cached quotes (non-zero bid on
the `from` side and non-zero ask on the `to` side, a code equal to the base
currency carrying the implicit bid = ask = 1 via `cachedRate`), the cached
cross-rate conversion returns `amount * from.bid / to.ask`; the Go fields
`Buy`/`Sell` are the bid/ask sides. -/
theorem c4_cross_rate_formula (c : RateStore) (fromCur toCur : String)
    (amount : ℚ) (hne : fromCur ≠ toCur)
    (hbid : (cachedRate c fromCur).Buy ≠ 0)
    (hask : (cachedRate c toCur).Sell ≠ 0) :
    getPairRateFromList c fromCur toCur amount =
      (amount * (cachedRate c fromCur).Buy / (cachedRate c toCur).Sell, true) := by
  rw [getPairRateFromList, if_neg hne]
  exact if_neg (by push_neg; exact ⟨hbid, hask⟩)

/-- C4 witness: the spec's scenario — USD bid 2.70, RUR ask 0.030 against
base GEL — converts 100 USD to exactly 9000 RUR on the cached path. -/
theorem c4_cross_rate_formula_witness :
    getPairRateFromList scenarioStore "USD" "RUR" 100 = (9000, true) := by
  have h := c4_cross_rate_formula scenarioStore "USD" "RUR" 100 (by decide)
    (by simp [cachedRate, scenarioStore, List.lookup])
    (by simp [cachedRate, scenarioStore, List.lookup])
  rw [h]
  simp [cachedRate, scenarioStore, List.lookup]
  norm_num

/-- C6 counterexample: with `from = to = "USD"` and the quote entirely
absent from the store (so its bid is 0), the cached path succeeds with the
full amount instead of reporting failure, because the identity shortcut
precedes every rate lookup. -/
theorem c6_counterexample :
    (cachedRate emptyStore "USD").Buy = 0
  ∧ List.lookup "USD" emptyStore.rates = none
  ∧ getPairRateFromList emptyStore "USD" "USD" 100 = (100, true) := by
  refine ⟨rfl, rfl, rfl⟩

/-- C6 (amended to distinct currencies): on the cached cross-rate path with
`from ≠ to`, a zero bid on the `from` side or a zero ask on the `to` side —
which is in particular what `cachedRate` yields when the quote is entirely
absent — makes the computation report failure `(0, false)` instead of a
degenerate amount. -/
theorem c6_zero_or_missing_rate_fails (c : RateStore) (fromCur toCur : String)
    (amount : ℚ) (hne : fromCur ≠ toCur)
    (h : (cachedRate c fromCur).Buy = 0 ∨ (cachedRate c toCur).Sell = 0) :
    getPairRateFromList c fromCur toCur amount = (0, false) := by
  rw [getPairRateFromList, if_neg hne]
  exact if_pos h

/-- C6 witness: both quotes absent (empty store), distinct currencies: the
cached conversion fails. -/
theorem c6_zero_or_missing_rate_fails_witness :
    getPairRateFromList emptyStore "USD" "RUR" 100 = (0, false) :=
  c6_zero_or_missing_rate_fails emptyStore "USD" "RUR" 100 (by decide)
    (Or.inl rfl)

/-- C5: the conversion engine returns the direct provider convert's value
whenever that call succeeds; on a direct failure it falls back to the cached
cross-rate; and when both fail it returns the "conversion unavailable" error
(`err ≠ none`), never an amount with a nil error. -/
theorem c5_direct_then_cache_then_error (c : RateStore) (known : String)
    (amount : ℚ) (offerType : Int) (v : ℚ) (e : String) :
    _computeCounterAmountInternal c (.ok v) known amount offerType
      = (defaultCounterCurrency known, v, none)
  ∧ ((getPairRateFromList c known (defaultCounterCurrency known) amount).2 = true →
      _computeCounterAmountInternal c (.error e) known amount offerType
        = (defaultCounterCurrency known,
           (getPairRateFromList c known (defaultCounterCurrency known) amount).1,
           none))
  ∧ ((getPairRateFromList c known (defaultCounterCurrency known) amount).2 = false →
      _computeCounterAmountInternal c (.error e) known amount offerType
        = (defaultCounterCurrency known, 0,
           some "conversion failed and no cached rate available")) := by
  refine ⟨rfl, ?_, ?_⟩ <;> intro h <;>
    simp [_computeCounterAmountInternal, h]

/-- C5 witness: a successful direct convert is returned as-is; with the
direct convert failing, the scenario store answers 9000 from the cache; with
the direct convert failing over an empty store the result is the error and
no amount. -/
theorem c5_direct_then_cache_then_error_witness :
    _computeCounterAmountInternal emptyStore (.ok 42) "USD" 100 1
      = ("RUR", 42, none)
  ∧ _computeCounterAmountInternal scenarioStore (.error "timeout") "USD" 100 1
      = ("RUR", 9000, none)
  ∧ _computeCounterAmountInternal emptyStore (.error "timeout") "USD" 100 1
      = ("RUR", 0, some "conversion failed and no cached rate available") := by
  refine ⟨?_, ?_, ?_⟩
  · exact (c5_direct_then_cache_then_error emptyStore "USD" 100 1 42 "timeout").1
  · have hdc : defaultCounterCurrency "USD" = "RUR" := rfl
    have h := (c5_direct_then_cache_then_error scenarioStore "USD" 100 1 42
      "timeout").2.1 (by rw [hdc, scenario_pair_rate])
    rw [hdc, scenario_pair_rate] at h
    exact h
  · exact (c5_direct_then_cache_then_error emptyStore "USD" 100 1 42
      "timeout").2.2 rfl

/-- C7: for every timeout, when the full-refresh provider call fails (the
transport/status/decode/timeout failures that `getTBCCurrencyRatesCtx`
reports as an error), `_refresh` returns that error with the store entirely
unchanged; on success (with a compatible base) the map is replaced wholesale
and every entry carries the one uniform timestamp `now`, which also becomes
the cache-wide timestamp. -/
theorem c7_refresh_failure_atomic :
    (∀ (timeout : Int) (c : RateStore) (e : String) (now : Nat),
        _refresh timeout c (.error e) now = .failed e c)
  ∧ (∀ (timeout : Int) (c : RateStore) (out : tbcCommercialRatesResponse)
        (now : Nat),
        ¬(c.base ≠ "" ∧ ¬ equalFold c.base out.Base) →
        _refresh timeout c (.ok out) now =
          .ok { base := toUpperStr out.Base,
                rates := stampAll (buildRefreshMap out.CommercialRatesList) now,
                lastUpdated := now }
        ∧ ∀ p ∈ stampAll (buildRefreshMap out.CommercialRatesList) now,
            p.2.LastUpdated = now) := by
  constructor
  · intro _ _ _ _
    rfl
  · intro timeout c out now h
    refine ⟨?_, stampAll_stamped _ now⟩
    rw [_refresh]
    exact if_neg h

/-- C7 witness: a failed fetch at clock 77 leaves the scenario store as the
result of the error case untouched; a successful fetch over the empty store
replaces the map wholesale with the single USD entry stamped 77. -/
theorem c7_refresh_failure_atomic_witness :
    _refresh 5 scenarioStore (.error "status 500") 77
      = .failed "status 500" scenarioStore
  ∧ _refresh 0 emptyStore (.ok sampleResp) 77
      = .ok { base := "GEL", rates := [("USD", ⟨27/10, 11/4, 77⟩)],
              lastUpdated := 77 } := by
  constructor
  · exact c7_refresh_failure_atomic.1 5 scenarioStore "status 500" 77
  · have h := (c7_refresh_failure_atomic.2 0 emptyStore sampleResp 77
      (by decide)).1
    rw [h]
    rfl

/-- C9: every token that trims and lower-cases to an alias of a supported
currency normalizes to that currency's canonical code; and a token whose
trimmed lower-case form is no alias, matches no pattern rule, and is no
canonical code (case-insensitively) normalizes to not-ok. -/
theorem c9_normalize_total :
    (∀ spec ∈ currencySpecs, ∀ a ∈ spec.Aliases, ∀ token : String,
        toLowerStr (trimStr token) = a → normalizeCurrency token = some spec.Code)
  ∧ (∀ token : String,
        List.lookup (toLowerStr (trimStr token)) currencyAliasToIndex = none →
        (∀ rule ∈ currencyRegexpRules,
            firstCharIs rule.1 (toLowerStr (trimStr token)) = false) →
        List.lookup (toUpperStr (toLowerStr (trimStr token)))
            currencyIndexByCode = none →
        normalizeCurrency token = none) := by
  constructor
  · have key : ∀ spec ∈ currencySpecs, ∀ a ∈ spec.Aliases,
        normCore a = some spec.Code := by decide
    intro spec hs a ha token htok
    rw [normalizeCurrency, htok]
    exact key spec hs a ha
  · intro token h1 h2 h3
    have hfind : currencyRegexpRules.find?
        (fun rule => firstCharIs rule.1 (toLowerStr (trimStr token))) = none := by
      rw [List.find?_eq_none]
      intro rule hr
      rw [h2 rule hr]
      exact Bool.false_ne_true
    rw [normalizeCurrency, normCore, h1, hfind]
    simp [h3]

/-- C9 witness: the spec's scenario — `$`, `USD`, `usd` (and a padded
mixed-case ` UsD `) normalize to the one canonical code USD — plus an
unrecognized token yielding not-ok. -/
theorem c9_normalize_total_witness :
    normalizeCurrency "$" = some "USD"
  ∧ normalizeCurrency "USD" = some "USD"
  ∧ normalizeCurrency "usd" = some "USD"
  ∧ normalizeCurrency " UsD " = some "USD"
  ∧ normalizeCurrency "zzz" = none := by
  refine ⟨?_, ?_, ?_, ?_, ?_⟩
  · exact c9_normalize_total.1 ⟨"USD", "$", ["$", "usd", "долл"]⟩ (by decide)
      "$" (by decide) "$" (by decide)
  · exact c9_normalize_total.1 ⟨"USD", "$", ["$", "usd", "долл"]⟩ (by decide)
      "usd" (by decide) "USD" (by decide)
  · exact c9_normalize_total.1 ⟨"USD", "$", ["$", "usd", "долл"]⟩ (by decide)
      "usd" (by decide) "usd" (by decide)
  · exact c9_normalize_total.1 ⟨"USD", "$", ["$", "usd", "долл"]⟩ (by decide)
      "usd" (by decide) " UsD " (by decide)
  · exact c9_normalize_total.2 "zzz" (by decide) (by decide) (by decide)

/-- C10: every mutation path keeps the invariant that stored quotes carry a
non-zero timestamp, provided the clock `now` is non-zero (Go's `time.Now()`
is never the zero time): the ApplySingle handler replaces a zero stamp with
`now` before storing, a successful synchronous full refresh stamps every
entry with `now`, the background full refresh stores entries stamped `now`,
and a background single-currency fetch only ever sends messages whose rate
is already stamped. -/
theorem c10_quotes_always_stamped :
    (∀ (c : RateStore) (code : String) (rate : tbcRate) (now : Nat),
        now ≠ 0 → quotesStamped c →
        quotesStamped (applySingleHandler c code rate now))
  ∧ (∀ (timeout : Int) (c : RateStore) (out : tbcCommercialRatesResponse)
        (now : Nat) (s : RateStore), now ≠ 0 →
        _refresh timeout c (.ok out) now = .ok s → quotesStamped s)
  ∧ (∀ (c : RateStore) (fetched : Except String tbcCommercialRatesResponse)
        (now : Nat), now ≠ 0 → quotesStamped c →
        quotesStamped (refreshAsyncApply c fetched now).1)
  ∧ (∀ (cur : String) (fetched : Except String tbcCommercialRatesResponse)
        (now : Nat) (code : String) (rate : tbcRate), now ≠ 0 →
        CacheMsg.applySingle code rate ∈ singleRateUpdateComplete cur fetched now →
        rate.LastUpdated ≠ 0) := by
  refine ⟨?_, ?_, ?_, ?_⟩
  · intro c code rate now hnow hc
    intro p hp
    refine mapInsert_pres (fun t => t.LastUpdated ≠ 0) c.rates code _ hc ?_ p hp
    by_cases hz : rate.LastUpdated = 0
    · simp [hz]
      exact hnow
    · simp [hz]
  · intro timeout c out now s hnow heq
    rw [_refresh] at heq
    split at heq
    · exact absurd heq (by simp)
    · injection heq with hs
      rw [← hs]
      intro p hp
      rw [stampAll_stamped _ now p hp]
      exact hnow
  · intro c fetched now hnow hc
    match fetched with
    | .error e => exact hc
    | .ok out =>
        intro p hp
        have := asyncFold_stamped now out.CommercialRatesList []
          (by intro q hq; simp at hq) p hp
        rw [this]
        exact hnow
  · intro cur fetched now code rate hnow hmem
    match fetched with
    | .error e => simp [singleRateUpdateComplete] at hmem
    | .ok out =>
        rw [singleRateUpdateComplete] at hmem
        split at hmem
        · rw [List.mem_singleton] at hmem
          injection hmem with hcode hrate
          rw [hrate]
          exact hnow
        · simp at hmem

/-- C10 witness: each preserved path evaluated at clock 9 — merging an
unstamped rate through the ApplySingle handler, a successful synchronous
refresh, a completed background full refresh, and the message sent by a
completed background single-currency fetch. -/
theorem c10_quotes_always_stamped_witness :
    quotesStamped (applySingleHandler emptyStore "USD" ⟨27/10, 11/4, 0⟩ 9)
  ∧ quotesStamped { base := "GEL", rates := [("USD", ⟨27/10, 11/4, 9⟩)],
                    lastUpdated := 9 }
  ∧ quotesStamped (refreshAsyncApply emptyStore (.ok sampleResp) 9).1
  ∧ (⟨27/10, 11/4, 9⟩ : tbcRate).LastUpdated ≠ 0 := by
  refine ⟨?_, ?_, ?_, ?_⟩
  · exact c10_quotes_always_stamped.1 emptyStore "USD" ⟨27/10, 11/4, 0⟩ 9
      (by decide) emptyStore_stamped
  · exact c10_quotes_always_stamped.2.1 0 emptyStore sampleResp 9
      { base := "GEL", rates := [("USD", ⟨27/10, 11/4, 9⟩)], lastUpdated := 9 }
      (by decide) rfl
  · exact c10_quotes_always_stamped.2.2.1 emptyStore (.ok sampleResp) 9
      (by decide) emptyStore_stamped
  · exact c10_quotes_always_stamped.2.2.2 "USD" (.ok sampleResp) 9 "USD"
      ⟨27/10, 11/4, 9⟩ (by decide) (List.mem_singleton.mpr rfl)

/-- C1: the claim that a background fetch task never writes the store
directly but always delivers its result as a message fails on the code: the
goroutine spawned by `refreshIfStaleAsync` assigns `c.base`, `c.rates` and
`c.lastUpdated` itself (src/currency.go lines 394–408) and sends nothing to
the mailbox.  Evaluated here on a successful background fetch over the
initial store: the task's own store writes change the store while its
message list is empty (contrast `singleRateUpdateComplete`, which sends an
`applySingle` message and leaves the store alone). -/
theorem c1_background_fetch_mutates_directly :
    (refreshAsyncApply emptyStore (.ok sampleResp) 50).1 ≠ emptyStore
  ∧ (refreshAsyncApply emptyStore (.ok sampleResp) 50).2 = []
  ∧ singleRateUpdateComplete "USD" (.ok sampleResp) 50
      = [CacheMsg.applySingle "USD" ⟨27/10, 11/4, 50⟩] := by
  refine ⟨?_, rfl, rfl⟩
  intro h
  have := congrArg RateStore.lastUpdated h
  simp [refreshAsyncApply, emptyStore] at this

/-- C2: the claim that with no API key every `computeCounterAmount` call
returns the "unavailable" error and never panics fails on the code:
`initCurrencyRates` returns `nil` for a blank key, and the public
`computeCounterAmount` dereferences `c.reqCh` on that nil receiver, which
panics at runtime instead of returning an error. -/
theorem c2_missing_api_key_panics :
    initCurrencyRates "" = none
  ∧ initCurrencyRates "   " = none
  ∧ computeCounterAmount none "USD" 100 1 (.error "no api key")
      = GoResult.panicked "invalid memory address or nil pointer dereference" := by
  refine ⟨rfl, rfl, rfl⟩

/-- C3: the claim that a tick launches a fetch whenever the cache-wide
timestamp is older than the 2-hour threshold fails on the code: the first
check of `refreshIfStaleAsync` returns early — performing no fetch — exactly
when `lastUpdated` is non-zero and stale.  At clock 10000 the store's
timestamp 100 is 9900 units old (beyond the 7200-unit threshold, with its
sole quote equally old and non-zero), yet the tick does nothing. -/
theorem c3_stale_cache_not_refreshed :
    refreshIfStaleAsync c3Store 10000 = TickAction.noFetch
  ∧ c3Store.lastUpdated ≠ 0
  ∧ 10000 - c3Store.lastUpdated > 7200 := by
  refine ⟨rfl, by decide, by decide⟩
